import Mathlib

/-!
# ByteSeeker — verification of the concurrent probing engine against its spec

Shallow embedding of the Go sources of the ByteSeeker repository:

* `scanTarget` / `runScanner` from `src/scan.go` (the primary variant, the one
  wired to `src/main.go` via the config in `src/unnamed/part_001`);
* the DNS cache (`lookup`, `cachedDialContext`) from `src/unnamed/part_002`
  (identical text in `src/unnamed/part_000`);
* `loadPaths` in both its variants (`src/unnamed/part_002` with
  `bufio.Scanner`, `src/cmd/main.go` with `strings.Split` + filter).

Machine integers (`time.Duration` is Go's `int64`) are modelled as `Int`
with explicit two's-complement wraparound where the source multiplies.
External effects (the HTTP client, `net.LookupHost`, the file system) are
modelled as explicit inputs: a task receives the stream of per-attempt
results its `client.Do` calls would produce, the cache receives the resolver
as a function, the loader receives the file contents (or a read error).
-/

/-- Result of one `client.Do` call inside the retry loop of `scanTarget`
(`src/scan.go`): either a network/timeout error (`resp` is `nil`, the error
is non-`nil`) or a completed response with its HTTP status code. -/
inductive Attempt where
  | netErr : Attempt
  | ok : Nat → Attempt
  deriving DecidableEq, Repr

/-- The `ScanResult` record of `src/scan.go` lines 17–22.  A Go zero value
is the empty string / `0`. -/
structure ScanResult where
  url : String
  statusCode : Nat
  status : String
  errorMessage : String
  deriving DecidableEq, Repr

/-- Two's-complement wraparound of Go's `int64`, used where the source
computes `*adaptiveDelay *= 2` on a `time.Duration`. -/
def wrap64 (n : Int) : Int := (n + 2 ^ 63) % 2 ^ 64 - 2 ^ 63

/-- The status switch of `src/scan.go` lines 67–73: `200 → "Found"`,
`429 → "Rate limited"`, anything else keeps the initial `"Unknown"`. -/
def statusLabel (s : Nat) : String :=
  if s = 200 then "Found" else if s = 429 then "Rate limited" else "Unknown"

/-- The mutable locals of `scanTarget`'s retry loop (`src/scan.go` 29–56):
`resp` is the last value assigned by `resp, err = client.Do(req)` (`none` for
`nil`), `delay` the current value of the shared `*adaptiveDelay`, `used` the
number of `client.Do` calls performed, `agents` the user-agent index set on
each performed request, `sleeps` the durations passed to `time.Sleep`. -/
structure LoopSt where
  resp : Option Nat
  delay : Int
  used : Nat
  agents : List Nat
  sleeps : List Int
  deriving DecidableEq, Repr

/-- Control-flow outcome of one loop iteration: `brk` models `break`,
`cont` models falling through to the next iteration (`continue` or the end
of the body). -/
inductive StepOut where
  | brk : LoopSt → StepOut
  | cont : LoopSt → StepOut
  deriving DecidableEq, Repr

/-- One iteration `i` of the loop `for i := 0; i < 3; i++` of `scanTarget`
(`src/scan.go` 31–56), given the result `att i` its `client.Do` call returns:

* on an error (`att i = netErr`): `resp` was assigned `nil`; the body falls
  through to `time.Sleep(*adaptiveDelay); *adaptiveDelay *= 2` and loops;
* on a response with status `404`: the body hits `continue` — the sleep and
  the doubling are skipped, the loop retries immediately;
* on any other response: `break`. -/
def scanStep (att : Nat → Attempt) (ua : Nat) (i : Nat) (st : LoopSt) : StepOut :=
  match att i with
  | Attempt.netErr =>
      StepOut.cont ⟨none, wrap64 (2 * st.delay), st.used + 1,
        st.agents ++ [ua], st.sleeps ++ [st.delay]⟩
  | Attempt.ok s =>
      if s = 404 then
        StepOut.cont ⟨some s, st.delay, st.used + 1, st.agents ++ [ua], st.sleeps⟩
      else
        StepOut.brk ⟨some s, st.delay, st.used + 1, st.agents ++ [ua], st.sleeps⟩

/-- The three iterations of `scanTarget`'s loop, unrolled (`i < 3` is a
literal bound in the source). -/
def scanLoop3 (att : Nat → Attempt) (ua : Nat) (st0 : LoopSt) : LoopSt :=
  match scanStep att ua 0 st0 with
  | StepOut.brk st => st
  | StepOut.cont st1 =>
    match scanStep att ua 1 st1 with
    | StepOut.brk st => st
    | StepOut.cont st2 =>
      match scanStep att ua 2 st2 with
      | StepOut.brk st => st
      | StepOut.cont st3 => st3

/-- Everything one `scanTarget` call produces: the `ScanResult`s it sends on
the results channel, how many HTTP attempts it performed, the user-agent
index of each attempt, the sleeps it executed, the final value of the shared
`*adaptiveDelay`, and whether it ended in the 404-suppression branch (a
non-`nil` response with status 404 after the loop: nothing is emitted). -/
structure TaskOut where
  emitted : List ScanResult
  used : Nat
  agents : List Nat
  sleeps : List Int
  delay : Int
  suppressed : Bool
  deriving DecidableEq, Repr

/-- `scanTarget` of `src/scan.go` lines 24–76, for one path.

* `rng k` models the `k`-th value drawn from `math/rand`; `rand.Intn n` is
  `rng k % n`.  The source draws the user agent ONCE, before the loop
  (line 27), so only `rng 0` is ever consumed.
* `reqBad` models `http.NewRequestWithContext` failing: its success depends
  only on the (constant) URL, so it either fails on iteration 0 — emitting
  unless the error text contains `"404"` (the flag carried by `reqBad`) and
  returning — or never fails.
* After the loop the source tests `if err != nil` — but that is the OUTER
  `err` declared on line 30, which is never assigned: line 35 `req, err :=`
  re-declares `err` inside the loop body, so line 45 `resp, err = client.Do`
  writes the inner one.  The outer `err` is always `nil` and the post-loop
  error branch (lines 58–64) is dead; the translation therefore goes
  straight to the `resp != nil && resp.StatusCode != 404` emission. -/
def scanTargetGo (rng : Nat → Nat) (nAgents : Nat) (baseURL path : String)
    (reqBad : Option Bool) (att : Nat → Attempt) (delay0 : Int) : TaskOut :=
  let ua := rng 0 % nAgents
  match reqBad with
  | some has404 =>
      ⟨if has404 then [] else
        [⟨baseURL ++ path, 0, "", "Error creating request for " ++ path⟩],
       0, [], [], delay0, false⟩
  | none =>
      let st := scanLoop3 att ua ⟨none, delay0, 0, [], []⟩
      match st.resp with
      | some s =>
          if s = 404 then
            ⟨[], st.used, st.agents, st.sleeps, st.delay, true⟩
          else
            ⟨[⟨baseURL ++ path, s, statusLabel s, ""⟩],
             st.used, st.agents, st.sleeps, st.delay, false⟩
      | none => ⟨[], st.used, st.agents, st.sleeps, st.delay, false⟩

/-- One submitted path together with the behaviour the network would show
it: whether request creation fails, and the per-attempt results. -/
structure TaskSpec where
  path : String
  reqBad : Option Bool
  att : Nat → Attempt

/-- What a whole run produces: all emitted results, how many paths ended in
the 404-suppression branch, and the final value of `config.adaptiveDelay`. -/
structure RunOut where
  emitted : List ScanResult
  suppressedCount : Nat
  delay : Int

/-- The per-path projection of `runScanner` (`src/scan.go` 97–125) under a
serialized schedule: every worker runs `scanTarget` with a pointer to the
single `config.adaptiveDelay`, so the delay each task starts from is
whatever value the previous task left behind. -/
def runScannerGo (rng : Nat → Nat) (nAgents : Nat) (baseURL : String) (d : Int) :
    List TaskSpec → RunOut
  | [] => ⟨[], 0, d⟩
  | t :: rest =>
      let o := scanTargetGo rng nAgents baseURL t.path t.reqBad t.att d
      let r := runScannerGo rng nAgents baseURL o.delay rest
      ⟨o.emitted ++ r.emitted,
       (if o.suppressed then 1 else 0) + r.suppressedCount, r.delay⟩

/-- A cached resolution: resolved address plus resolution time, the
`dnsCacheEntry` of `src/unnamed/part_002` (timestamps in nanoseconds). -/
structure dnsCacheEntry where
  ip : String
  timestamp : Nat
  deriving DecidableEq, Repr

/-- Reading `c.entries[host]` from the Go map, with the map represented as
an association list (first match wins; `dnsStore` keeps at most one entry
per host). -/
def dnsFind (entries : List (String × dnsCacheEntry)) (host : String) :
    Option dnsCacheEntry :=
  (entries.find? (fun p => p.1 == host)).map (fun p => p.2)

/-- A Go map assignment `c.entries[host] = e`: any prior entry for `host`
is overwritten. -/
def dnsStore (entries : List (String × dnsCacheEntry)) (host : String)
    (e : dnsCacheEntry) : List (String × dnsCacheEntry) :=
  (host, e) :: entries.filter (fun p => p.1 != host)

/-- The freshness window `5 * time.Minute` of `src/unnamed/part_002` line
54, in nanoseconds. -/
def freshWindow : Nat := 300000000000

/-- The miss path of `lookup` (`src/unnamed/part_002` lines 60–70):
`net.LookupHost` — abstracted as `resolver`, already composed with taking
the first returned address — is performed; on error it is propagated with
the cache untouched, on success `(ip, now)` is stored.  The third component
counts how many times the underlying resolver ran. -/
def dnsLookupMiss (now : Nat) (resolver : String → Except String String)
    (entries : List (String × dnsCacheEntry)) (host : String) :
    Except String String × List (String × dnsCacheEntry) × Nat :=
  match resolver host with
  | Except.error e => (Except.error e, entries, 1)
  | Except.ok ip => (Except.ok ip, dnsStore entries host ⟨ip, now⟩, 1)

/-- `(c *dnsCache) lookup` of `src/unnamed/part_002` lines 52–71: under the
read lock, a found entry younger than five minutes is returned as is;
otherwise the resolver runs (`dnsLookupMiss`).  `time.Since(ts) < 5min` is
`now - ts < freshWindow`. -/
def dnsLookup (now : Nat) (resolver : String → Except String String)
    (entries : List (String × dnsCacheEntry)) (host : String) :
    Except String String × List (String × dnsCacheEntry) × Nat :=
  match dnsFind entries host with
  | some entry =>
      if now - entry.timestamp < freshWindow then (Except.ok entry.ip, entries, 0)
      else dnsLookupMiss now resolver entries host
  | none => dnsLookupMiss now resolver entries host

/-- `strings.LastIndex(addr, ":")` (`src/unnamed/part_002` line 74): the
index of the last occurrence, `none` standing for Go's `-1`. -/
def lastIdx (c : Char) : List Char → Option Nat
  | [] => none
  | a :: rest =>
    match lastIdx c rest with
    | some i => some (i + 1)
    | none => if a = c then some 0 else none

/-- The slicing `host, port := addr[:separator], addr[separator:]` of
`cachedDialContext` (`src/unnamed/part_002` line 75).  When `LastIndex`
returned `-1` the expression `addr[:-1]` panics — modelled as `none`; no
error branch exists in the source. -/
def cachedDialSplit (addr : List Char) : Option (List Char × List Char) :=
  match lastIdx ':' addr with
  | none => none
  | some i => some (addr.take i, addr.drop i)

/-- `strings.Split(s, "\n")` over the characters of the file contents: `n`
separators yield `n + 1` segments (trailing empty segments kept). -/
def splitLines : List Char → List (List Char)
  | [] => [[]]
  | c :: rest =>
    if c = '\n' then [] :: splitLines rest
    else
      match splitLines rest with
      | [] => [[c]]
      | l :: ls => (c :: l) :: ls

/-- `dropCR` of `bufio.ScanLines`: a single trailing carriage return is
removed from a reported line. -/
def dropCR (l : List Char) : List Char :=
  if l.getLast? = some '\r' then l.dropLast else l

/-- The token sequence `bufio.Scanner` (with the default `ScanLines` split)
reports for the given contents: the newline-separated segments, each with a
trailing CR dropped; a trailing newline produces no final empty token, and
empty contents produce no token. -/
def goScanLines (content : List Char) : List (List Char) :=
  if content = [] then []
  else
    (if content.getLast? = some '\n' then (splitLines content).dropLast
     else splitLines content).map dropCR

/-- `loadPaths` of `src/unnamed/part_002` lines 8–24: the source is either
unreadable (the open/scan error, propagated) or its contents; every scanned
line is appended verbatim. -/
def loadPaths (src : Except String (List Char)) :
    Except String (List (List Char)) :=
  src.map goScanLines

/-- Go's `unicode.IsSpace`: the characters of the `White_Space` range table
(`\t \n \v \f \r` and space, NEL `U+0085`, NBSP `U+00A0`, `U+1680`,
`U+2000`–`U+200A`, `U+2028`, `U+2029`, `U+202F`, `U+205F`, `U+3000`). -/
def goIsSpace (c : Char) : Bool :=
  (9 ≤ c.val && c.val ≤ 13) || c.val = 32 || c.val = 133 || c.val = 160
    || c.val = 5760 || (8192 ≤ c.val && c.val ≤ 8202)
    || c.val = 8232 || c.val = 8233 || c.val = 8239 || c.val = 8287
    || c.val = 12288

/-- `strings.TrimSpace` over characters: leading and trailing
`unicode.IsSpace` characters removed. -/
def trimChars (l : List Char) : List Char :=
  ((l.dropWhile goIsSpace).reverse.dropWhile goIsSpace).reverse

/-- `loadPaths` of `src/cmd/main.go` lines 137–153, applied to readable
contents: split on newlines, keep the lines whose `TrimSpace` is non-empty —
but append the ORIGINAL, untrimmed line. -/
def loadPathsCmdLines (content : List Char) : List (List Char) :=
  (splitLines content).filter (fun line => !(trimChars line).isEmpty)

/-- `loadPaths` of `src/cmd/main.go`, with the read error propagated. -/
def loadPathsCmd (src : Except String (List Char)) :
    Except String (List (List Char)) :=
  src.map loadPathsCmdLines

/-- The user-agent selection rule as the spec's §4.3 words it: every attempt
draws independently, the `k`-th attempt consuming the `k`-th random value
(`rand.Intn n` = value mod `n`). -/
def specPerAttemptAgents (rng : Nat → Nat) (nAgents : Nat) (attempts : Nat) :
    List Nat :=
  (List.range attempts).map (fun k => rng k % nAgents)

/-- Memory accesses on the shared `*adaptiveDelay` (`src/scan.go` lines
54–55), one per event, for an interleaved execution of the worker
goroutines.  `sleepR t` is task `t` evaluating `time.Sleep(*adaptiveDelay)`
(the read value is the observed sleep duration); `loadR t` is the read half
of task `t`'s `*adaptiveDelay *= 2`; `store t` is its write half, storing
twice the value task `t` loaded. -/
inductive RaceEv where
  | sleepR : Nat → RaceEv
  | loadR : Nat → RaceEv
  | store : Nat → RaceEv
  deriving DecidableEq, Repr

/-- Shared-memory state for the backoff race: the current value of
`config.adaptiveDelay`, each task's loaded value, and the sleep durations
observed so far (in wall-clock order). -/
structure RaceSt where
  delay : Int
  regs : Nat → Int
  obs : List Int

/-- One memory access, sequentially consistent per access. -/
def raceStep (st : RaceSt) (e : RaceEv) : RaceSt :=
  match e with
  | RaceEv.sleepR _ => ⟨st.delay, st.regs, st.obs ++ [st.delay]⟩
  | RaceEv.loadR t => ⟨st.delay, fun u => if u = t then st.delay else st.regs u, st.obs⟩
  | RaceEv.store t => ⟨wrap64 (2 * st.regs t), st.regs, st.obs⟩

/-- Execute an interleaving of accesses starting from the configured initial
delay. -/
def raceRun (d0 : Int) (evs : List RaceEv) : RaceSt :=
  evs.foldl raceStep ⟨d0, fun _ => d0, []⟩

/-- The race-free schedule: `n` backoff iterations, each one's
sleep-load-store executed contiguously (equivalently, tasks never overlap
on lines 54–55). -/
def serializedTrace (n : Nat) : List RaceEv :=
  (List.range n).flatMap (fun k => [RaceEv.sleepR k, RaceEv.loadR k, RaceEv.store k])

/-- The delay after `n` in-place doublings with int64 wraparound. -/
def pow2wrap (d0 : Int) : Nat → Int
  | 0 => d0
  | n + 1 => wrap64 (2 * pow2wrap d0 n)

/-- C1: the claim says a task whose three attempts all fail with a
network/timeout error emits exactly one terminal `Error` outcome.  The code
emits NOTHING for such a task: the loop-local `req, err :=` on line 35 of
`src/scan.go` shadows the outer `err`, so the post-loop `if err != nil`
branch (the only place an `Error` `ScanResult` could be sent) is dead, and
`resp` is `nil` after three failed `client.Do` calls, so the status branch
does not fire either.  Evaluated here at the failing input: three network
errors, zero emitted outcomes. -/
theorem scanTarget_exhausted_network_errors_emit_nothing :
    (scanTargetGo (fun _ => 0) 20 "https://x" "/admin" none
        (fun _ => Attempt.netErr) 100000000).emitted = []
    ∧ (scanTargetGo (fun _ => 0) 20 "https://x" "/admin" none
        (fun _ => Attempt.netErr) 100000000).used = 3 := by
  exact ⟨by decide, by decide⟩

/-- C2: the claim says emitted outcomes plus 404-suppressed paths account
for every submitted path.  Evaluating the run at one path whose attempts
all fail with network errors: zero outcomes are emitted and the path is not
counted as suppressed by the documented (404) policy, so the total is `0`,
not `|P| = 1` — the error-exhausted path is silently dropped. -/
theorem runScanner_outcome_count_shortfall :
    (runScannerGo (fun _ => 0) 20 "https://x" 100000000
        [⟨"/a", none, fun _ => Attempt.netErr⟩]).emitted.length
      + (runScannerGo (fun _ => 0) 20 "https://x" 100000000
        [⟨"/a", none, fun _ => Attempt.netErr⟩]).suppressedCount = 0
    ∧ ([(⟨"/a", none, fun _ => Attempt.netErr⟩ : TaskSpec)]).length = 1 := by
  exact ⟨by decide, by decide⟩

/-- C3: the claim says every `ScannerConfig` field, including the initial
adaptive delay, stays unchanged during a run.  `runScanner` passes
`&config.adaptiveDelay` to every task and `scanTarget` doubles it in place
on each failed attempt, so after a run with one path that exhausts its three
attempts the config's delay is `800ms`, no longer the configured `100ms`. -/
theorem runScanner_mutates_config_adaptiveDelay :
    (runScannerGo (fun _ => 0) 20 "https://x" 100000000
        [⟨"/a", none, fun _ => Attempt.netErr⟩]).delay = 800000000
    ∧ ((800000000 : Int) ≠ 100000000) := by
  exact ⟨by decide, by decide⟩

/-- C4 counterexample: the claim says a status that is neither 200 nor 429
and not ≥ 500 is terminal, while a status ≥ 500 is retried with backoff.
The code does the opposite on both points: a 500 response terminates the
task on its first attempt (emitted with the `"Unknown"` label, `used = 1`,
no retry), while a 404 response is retried — three attempts are consumed
and the task ends suppressed. -/
theorem scanTarget_terminal_retry_classification_cex :
    (scanTargetGo (fun _ => 0) 20 "https://x" "/a" none
        (fun _ => Attempt.ok 500) 100).used = 1
    ∧ (scanTargetGo (fun _ => 0) 20 "https://x" "/a" none
        (fun _ => Attempt.ok 500) 100).emitted
        = [⟨"https://x/a", 500, "Unknown", ""⟩]
    ∧ (scanTargetGo (fun _ => 0) 20 "https://x" "/a" none
        (fun _ => Attempt.ok 404) 100).used = 3
    ∧ (scanTargetGo (fun _ => 0) 20 "https://x" "/a" none
        (fun _ => Attempt.ok 404) 100).emitted = []
    ∧ (scanTargetGo (fun _ => 0) 20 "https://x" "/a" none
        (fun _ => Attempt.ok 404) 100).suppressed = true := by
  refine ⟨by decide, by decide, by decide, by decide, by decide⟩

/-- C4 amended: the per-attempt transition rule, at EVERY attempt index
`i` and from every loop state: a response with any status other than 404 is
`break` (terminal) with no sleep and the delay untouched; a network/timeout
error falls through to the backoff — the task sleeps the CURRENT shared
delay and then doubles it (int64 wraparound) — and retries; a 404 response
hits `continue` — retried immediately, no sleep, no doubling.  At the task
level, whichever attempt `i < 3` first returns a non-404 status (after any
mix of network errors and 404s) ends the task at exactly `i + 1` attempts
with the classified result emitted; and a task whose three attempts are all
404 ends after exactly three attempts, suppressed, with no sleeps. -/
theorem scanTarget_non404_terminal_404_retried
    (rng : Nat → Nat) (n : Nat) (baseURL path : String) (att : Nat → Attempt)
    (d : Int) :
    (∀ (ua i : Nat) (st : LoopSt),
        (∀ s, att i = Attempt.ok s → s ≠ 404 →
          scanStep att ua i st
            = StepOut.brk ⟨some s, st.delay, st.used + 1,
                st.agents ++ [ua], st.sleeps⟩)
        ∧ (att i = Attempt.netErr →
          scanStep att ua i st
            = StepOut.cont ⟨none, wrap64 (2 * st.delay), st.used + 1,
                st.agents ++ [ua], st.sleeps ++ [st.delay]⟩)
        ∧ (att i = Attempt.ok 404 →
          scanStep att ua i st
            = StepOut.cont ⟨some 404, st.delay, st.used + 1,
                st.agents ++ [ua], st.sleeps⟩))
    ∧ (∀ i, i < 3 →
        (∀ j, j < i → att j = Attempt.netErr ∨ att j = Attempt.ok 404) →
        ∀ s, att i = Attempt.ok s → s ≠ 404 →
          (scanTargetGo rng n baseURL path none att d).used = i + 1
          ∧ (scanTargetGo rng n baseURL path none att d).emitted
              = [⟨baseURL ++ path, s, statusLabel s, ""⟩])
    ∧ ((∀ i, att i = Attempt.ok 404) →
        scanTargetGo rng n baseURL path none att d
          = ⟨[], 3, [rng 0 % n, rng 0 % n, rng 0 % n], [], d, true⟩) := by
  refine ⟨?_, ?_, ?_⟩
  · intro ua i st
    refine ⟨?_, ?_, ?_⟩
    · intro s hs hne
      simp [scanStep, hs, hne]
    · intro h
      simp [scanStep, h]
    · intro h
      simp [scanStep, h]
  · intro i hi hprev s hs hne
    interval_cases i
    · simp [scanTargetGo, scanLoop3, scanStep, hs, hne]
    · rcases hprev 0 (by omega) with h0 | h0 <;>
        simp [scanTargetGo, scanLoop3, scanStep, h0, hs, hne]
    · rcases hprev 0 (by omega) with h0 | h0 <;>
        rcases hprev 1 (by omega) with h1 | h1 <;>
        simp [scanTargetGo, scanLoop3, scanStep, h0, h1, hs, hne]
  · intro hall
    simp [scanTargetGo, scanLoop3, scanStep, hall]

/-- C4 amended, at concrete inputs: a 500 arriving on the SECOND attempt
(after a network error on the first) is terminal there — two attempts used,
the `"Unknown"` outcome emitted — obtained by applying the amended theorem
at attempt index 1 with its hypotheses discharged. -/
theorem scanTarget_non404_terminal_404_retried_witness :
    (scanTargetGo (fun _ => 0) 20 "https://x" "/a" none
        (fun k => if k = 0 then Attempt.netErr else Attempt.ok 500) 100).used = 2
    ∧ (scanTargetGo (fun _ => 0) 20 "https://x" "/a" none
        (fun k => if k = 0 then Attempt.netErr else Attempt.ok 500) 100).emitted
      = [⟨"https://x/a", 500, "Unknown", ""⟩] :=
  (scanTarget_non404_terminal_404_retried (fun _ => 0) 20 "https://x" "/a"
      (fun k => if k = 0 then Attempt.netErr else Attempt.ok 500) 100).2.1
    1 (by decide)
    (fun j hj => by
      have hj0 : j = 0 := by omega
      subst hj0
      exact Or.inl rfl)
    500 rfl (by decide)

/-- C5: `lookup` of `src/unnamed/part_002` meets the cache contract the
claim states: it never runs the resolver more than once; a cached entry
younger than five minutes is returned as is, with the cache untouched and
the resolver not invoked (the result does not depend on `resolver` at all);
otherwise, with no entry or a stale one, the resolver runs exactly once —
on success `(address, now)` overwrites any prior entry for the host, on
failure the error is returned (not raised) and the cache is unchanged. -/
theorem dnsCache_lookup_contract (now : Nat)
    (resolver : String → Except String String)
    (entries : List (String × dnsCacheEntry)) (host : String) :
    (dnsLookup now resolver entries host).2.2 ≤ 1
    ∧ (∀ e, dnsFind entries host = some e → now - e.timestamp < freshWindow →
        dnsLookup now resolver entries host = (Except.ok e.ip, entries, 0))
    ∧ ((∀ e, dnsFind entries host = some e → freshWindow ≤ now - e.timestamp) →
        (∀ ip, resolver host = Except.ok ip →
            dnsLookup now resolver entries host
              = (Except.ok ip, dnsStore entries host ⟨ip, now⟩, 1))
        ∧ (∀ msg, resolver host = Except.error msg →
            dnsLookup now resolver entries host = (Except.error msg, entries, 1))) := by
  have hmiss2 : (dnsLookupMiss now resolver entries host).2.2 ≤ 1 := by
    unfold dnsLookupMiss
    split <;> simp
  refine ⟨?_, ?_, ?_⟩
  · unfold dnsLookup
    split
    · split
      · simp
      · exact hmiss2
    · exact hmiss2
  · intro e he hfresh
    unfold dnsLookup
    simp only [he, if_pos hfresh]
  · intro hstale
    have hm : dnsLookup now resolver entries host
        = dnsLookupMiss now resolver entries host := by
      unfold dnsLookup
      rcases hf : dnsFind entries host with _ | e
      · rfl
      · simp only [if_neg (Nat.not_lt.mpr (hstale e hf))]
    constructor
    · intro ip hip
      rw [hm]
      unfold dnsLookupMiss
      rw [hip]
    · intro msg hmsg
      rw [hm]
      unfold dnsLookupMiss
      rw [hmsg]

/-- C5 at concrete inputs: a fresh hit (entry 100ns old) returned without
resolving, a miss resolved and stored, and a failed miss leaving the empty
cache unchanged — each obtained from the contract theorem with its nested
hypotheses discharged. -/
theorem dnsCache_lookup_contract_witness :
    dnsLookup 200 (fun _ => Except.error "nxdomain")
        [("h.test", ⟨"1.2.3.4", 100⟩)] "h.test"
      = (Except.ok "1.2.3.4", [("h.test", ⟨"1.2.3.4", 100⟩)], 0)
    ∧ dnsLookup 7 (fun _ => Except.ok "5.6.7.8") [] "h.test"
      = (Except.ok "5.6.7.8", dnsStore [] "h.test" ⟨"5.6.7.8", 7⟩, 1)
    ∧ dnsLookup 7 (fun _ => Except.error "nxdomain") [] "h.test"
      = (Except.error "nxdomain", [], 1) :=
  ⟨(dnsCache_lookup_contract 200 (fun _ => Except.error "nxdomain")
      [("h.test", ⟨"1.2.3.4", 100⟩)] "h.test").2.1 ⟨"1.2.3.4", 100⟩
      (by decide) (by decide),
   ((dnsCache_lookup_contract 7 (fun _ => Except.ok "5.6.7.8") [] "h.test").2.2
      (fun e he => by cases he)).1 "5.6.7.8" rfl,
   ((dnsCache_lookup_contract 7 (fun _ => Except.error "nxdomain") [] "h.test").2.2
      (fun e he => by cases he)).2 "nxdomain" rfl⟩

/-- C6: a task whose first attempt gets an HTTP 429 terminates on that
single attempt with exactly one `Rate limited` outcome — no retry, no
sleep, the shared delay untouched — and the run continues: the remaining
paths of the run produce exactly what they would have produced alone. -/
theorem scanTarget_429_single_attempt_rate_limited
    (rng : Nat → Nat) (n : Nat) (baseURL path : String) (att : Nat → Attempt)
    (d : Int) (h : att 0 = Attempt.ok 429) :
    (scanTargetGo rng n baseURL path none att d).emitted
        = [⟨baseURL ++ path, 429, "Rate limited", ""⟩]
    ∧ (scanTargetGo rng n baseURL path none att d).used = 1
    ∧ (scanTargetGo rng n baseURL path none att d).delay = d
    ∧ ∀ rest, (runScannerGo rng n baseURL d (⟨path, none, att⟩ :: rest)).emitted
        = ⟨baseURL ++ path, 429, "Rate limited", ""⟩
            :: (runScannerGo rng n baseURL d rest).emitted := by
  have hmain : scanTargetGo rng n baseURL path none att d
      = ⟨[⟨baseURL ++ path, 429, "Rate limited", ""⟩], 1, [rng 0 % n], [], d, false⟩ := by
    simp [scanTargetGo, scanLoop3, scanStep, h, statusLabel]
  refine ⟨by rw [hmain], by rw [hmain], by rw [hmain], ?_⟩
  intro rest
  simp [runScannerGo, hmain]

/-- C6 at a concrete input: a mock `/login` answering 429 yields the single
`Rate limited` outcome on one attempt. -/
theorem scanTarget_429_single_attempt_rate_limited_witness :
    (scanTargetGo (fun _ => 0) 20 "https://x" "/login" none
        (fun _ => Attempt.ok 429) 100000000).emitted
      = [⟨"https://x/login", 429, "Rate limited", ""⟩] :=
  (scanTarget_429_single_attempt_rate_limited (fun _ => 0) 20 "https://x" "/login"
    (fun _ => Attempt.ok 429) 100000000 rfl).1

/-- C7 counterexample: the claim says every returned path string is
non-empty and whitespace-trimmed.  On contents `"a\n\n b "` the
`bufio.Scanner` variant returns `["a", "", " b "]` — an empty line and an
untrimmed one — and the `cmd` variant returns `["a", " b "]`, still
untrimmed (`" b "` is kept verbatim, only the FILTER uses `TrimSpace`). -/
theorem loadPaths_untrimmed_empty_lines_cex :
    loadPaths (Except.ok "a\n\n b ".data)
      = Except.ok ["a".data, "".data, " b ".data]
    ∧ ¬ (∀ l ∈ goScanLines "a\n\n b ".data, l ≠ [] ∧ trimChars l = l)
    ∧ loadPathsCmd (Except.ok "a\n\n b ".data) = Except.ok ["a".data, " b ".data]
    ∧ ¬ (∀ l ∈ loadPathsCmdLines "a\n\n b ".data, trimChars l = l) := by
  refine ⟨by rfl, by decide, by rfl, by decide⟩

/-- Helper: indexing below the shortened length, `dropLast` does not change
the element. -/
theorem getElem?_dropLast_of_lt (l : List (List Char)) (i : Nat)
    (h : i < l.dropLast.length) : l.dropLast[i]? = l[i]? := by
  rw [List.dropLast_eq_take]
  rw [List.dropLast_eq_take, List.length_take] at h
  exact List.getElem?_take_of_lt (by omega)

/-- C7 amended: `loadPaths` propagates a read error, and returns the
source's lines in source order but VERBATIM, dropping none.  Exactly: the
`bufio` variant returns one line per newline-separated segment (one fewer
when the contents end in a newline — that final empty token is not
reported — and none for empty contents), and its `i`-th line IS the `i`-th
raw segment with a trailing CR stripped — so empty and untrimmed lines are
included.  The `cmd` variant returns an order-preserving selection of the
raw segments containing a line exactly when — and, by the count equation,
exactly as often as — it occurs among the segments and is not
whitespace-only, each kept line verbatim, untrimmed. -/
theorem loadPaths_lines_in_order_untrimmed (e : String) (content : List Char) :
    loadPaths (Except.error e) = Except.error e
    ∧ loadPathsCmd (Except.error e) = Except.error e
    ∧ (goScanLines content).length
        = (if content = [] then 0
           else if content.getLast? = some '\n' then (splitLines content).length - 1
           else (splitLines content).length)
    ∧ (∀ i, i < (goScanLines content).length →
        (goScanLines content)[i]? = ((splitLines content)[i]?).map dropCR)
    ∧ List.Sublist (loadPathsCmdLines content) (splitLines content)
    ∧ (∀ l, l ∈ loadPathsCmdLines content
        ↔ (l ∈ splitLines content ∧ trimChars l ≠ []))
    ∧ (∀ l, (loadPathsCmdLines content).count l
        = if (trimChars l).isEmpty then 0 else (splitLines content).count l) := by
  refine ⟨rfl, rfl, ?_, ?_, List.filter_sublist _, ?_, ?_⟩
  · unfold goScanLines
    by_cases hnil : content = []
    · simp [hnil]
    · by_cases hlast : content.getLast? = some '\n' <;>
        simp [hnil, hlast, List.length_dropLast]
  · intro i h
    by_cases hnil : content = []
    · have hempty : goScanLines content = [] := by simp [goScanLines, hnil]
      rw [hempty] at h
      simp at h
    · by_cases hlast : content.getLast? = some '\n'
      · have hgs : goScanLines content
            = ((splitLines content).dropLast).map dropCR := by
          unfold goScanLines
          rw [if_neg hnil, if_pos hlast]
        rw [hgs] at h ⊢
        rw [List.getElem?_map,
          getElem?_dropLast_of_lt _ _ (by simpa using h)]
      · have hgs : goScanLines content = (splitLines content).map dropCR := by
          unfold goScanLines
          rw [if_neg hnil, if_neg hlast]
        rw [hgs, List.getElem?_map]
  · intro l
    unfold loadPathsCmdLines
    rw [List.mem_filter]
    simp [List.isEmpty_iff]
  · intro l
    unfold loadPathsCmdLines
    by_cases hempty : (trimChars l).isEmpty
    · rw [if_pos hempty]
      apply List.count_eq_zero.mpr
      intro hmem
      have hp := List.of_mem_filter hmem
      simp [hempty] at hp
    · rw [if_neg hempty]
      apply List.count_filter
      simp [hempty]

/-- C7 amended, at a concrete input: the second reported line of
`"a\n b "` is the second raw segment — the untrimmed `" b "` — obtained by
applying the amended theorem with its index-bound hypothesis discharged. -/
theorem loadPaths_lines_in_order_untrimmed_witness :
    (goScanLines "a\n b ".data)[1]?
      = ((splitLines "a\n b ".data)[1]?).map dropCR :=
  (loadPaths_lines_in_order_untrimmed "read error" "a\n b ".data).2.2.2.1
    1 (by decide)

/-- C8 counterexample: the claim says each attempt draws its user agent
independently.  With the random stream `0, 1, 2, …` and three performed
attempts, the code sets the agent drawn from stream position 0 on ALL
three requests (`[0, 0, 0]`), while per-attempt drawing as the spec words
it would use `[0, 1, 2]`. -/
theorem scanTarget_user_agent_fixed_per_task_cex :
    (scanTargetGo (fun k => k) 20 "https://x" "/a" none
        (fun _ => Attempt.netErr) 100).agents = [0, 0, 0]
    ∧ specPerAttemptAgents (fun k => k) 20 3 = [0, 1, 2]
    ∧ ([0, 0, 0] : List Nat) ≠ [0, 1, 2] := by
  refine ⟨by decide, by decide, by decide⟩

/-- Helper: one loop iteration extends the recorded agents by exactly the
task's single pre-drawn user agent. -/
theorem scanStep_agents_inv (att : Nat → Attempt) (ua i : Nat) (st st2 : LoopSt)
    (h : st.agents = List.replicate st.used ua)
    (hor : scanStep att ua i st = StepOut.brk st2
        ∨ scanStep att ua i st = StepOut.cont st2) :
    st2.agents = List.replicate st2.used ua := by
  have hstep : st2.used = st.used + 1 ∧ st2.agents = st.agents ++ [ua] := by
    unfold scanStep at hor
    rcases ha : att i with _ | s <;> rw [ha] at hor
    · rcases hor with h2 | h2
      · cases h2
      · cases h2
        exact ⟨rfl, rfl⟩
    · by_cases h4 : s = 404 <;> simp only [h4, if_true, if_false, reduceIte] at hor <;>
        rcases hor with h2 | h2 <;> cases h2 <;> exact ⟨rfl, rfl⟩
  rw [hstep.2, hstep.1, h, List.replicate_succ']

/-- Helper: through the whole unrolled loop the agent list stays
`replicate used ua`. -/
theorem scanLoop3_agents (att : Nat → Attempt) (ua : Nat) (st0 : LoopSt)
    (h : st0.agents = List.replicate st0.used ua) :
    (scanLoop3 att ua st0).agents
      = List.replicate (scanLoop3 att ua st0).used ua := by
  rcases hs0 : scanStep att ua 0 st0 with st1 | st1
  · have hinv := scanStep_agents_inv att ua 0 st0 st1 h (Or.inl hs0)
    simp only [scanLoop3, hs0]
    exact hinv
  · have h1 := scanStep_agents_inv att ua 0 st0 st1 h (Or.inr hs0)
    rcases hs1 : scanStep att ua 1 st1 with st2 | st2
    · have hinv := scanStep_agents_inv att ua 1 st1 st2 h1 (Or.inl hs1)
      simp only [scanLoop3, hs0, hs1]
      exact hinv
    · have h2 := scanStep_agents_inv att ua 1 st1 st2 h1 (Or.inr hs1)
      rcases hs2 : scanStep att ua 2 st2 with st3 | st3
      · have hinv := scanStep_agents_inv att ua 2 st2 st3 h2 (Or.inl hs2)
        simp only [scanLoop3, hs0, hs1, hs2]
        exact hinv
      · have hinv := scanStep_agents_inv att ua 2 st2 st3 h2 (Or.inr hs2)
        simp only [scanLoop3, hs0, hs1, hs2]
        exact hinv

/-- C8 amended: for every task, whatever the network shows it, the user
agent is drawn uniformly at random ONCE, before the retry loop (consuming
only stream position 0), and that single draw is set on every attempt the
task performs: the per-attempt agent list is `used` copies of the one
draw. -/
theorem scanTarget_user_agent_single_draw (rng : Nat → Nat) (n : Nat)
    (baseURL path : String) (reqBad : Option Bool) (att : Nat → Attempt)
    (d : Int) :
    (scanTargetGo rng n baseURL path reqBad att d).agents
      = List.replicate (scanTargetGo rng n baseURL path reqBad att d).used
          (rng 0 % n) := by
  rcases reqBad with _ | has404
  · have hmain := scanLoop3_agents att (rng 0 % n) ⟨none, d, 0, [], []⟩ (by simp)
    unfold scanTargetGo
    rcases hresp : (scanLoop3 att (rng 0 % n) ⟨none, d, 0, [], []⟩).resp with _ | s
    · simpa [hresp] using hmain
    · by_cases h4 : s = 404 <;> simpa [hresp, h4] using hmain
  · simp [scanTargetGo]

/-- Helper: `LastIndex` returns `-1` (`none`) exactly when the character
does not occur. -/
theorem lastIdx_none_iff (c : Char) (l : List Char) :
    lastIdx c l = none ↔ c ∉ l := by
  induction l with
  | nil => simp [lastIdx]
  | cons a rest ih =>
    simp only [lastIdx]
    rcases h : lastIdx c rest with _ | i
    · have hrest : c ∉ rest := ih.mp h
      by_cases hac : a = c
      · simp [hac]
      · simp [hac, hrest, List.mem_cons]
        exact fun he => hac he.symm
    · have hrest : c ∈ rest := by
        by_contra hn
        rw [← ih] at hn
        exact absurd h (by simp [hn])
      simp [List.mem_cons, hrest]

/-- Helper: the suffix starting at the index `LastIndex` returns begins
with the sought character and contains no later occurrence of it. -/
theorem lastIdx_drop (c : Char) (l : List Char) (i : Nat)
    (h : lastIdx c l = some i) :
    (l.drop i).take 1 = [c] ∧ c ∉ (l.drop i).drop 1 ∧ i < l.length := by
  induction l generalizing i with
  | nil => simp [lastIdx] at h
  | cons a rest ih =>
    simp only [lastIdx] at h
    rcases h2 : lastIdx c rest with _ | j <;> rw [h2] at h
    · by_cases hac : a = c
      · rw [if_pos hac] at h
        cases h
        refine ⟨by simp [hac], ?_, by simp⟩
        simpa using lastIdx_none_iff c rest |>.mp h2
      · rw [if_neg hac] at h
        cases h
    · cases h
      obtain ⟨ht, hd, hl⟩ := ih j h2
      refine ⟨?_, ?_, ?_⟩
      · simpa [List.drop_succ_cons] using ht
      · simpa [List.drop_succ_cons] using hd
      · simpa using Nat.succ_lt_succ hl

/-- C9: `cachedDialContext` slices `addr` at `strings.LastIndex(addr, ":")`
without checking for `-1`; for an `addr` with no colon the slice panics
(modelled `none` — no error branch exists), and for an `addr` containing a
colon the split is safe and cuts exactly at the LAST colon: the two pieces
reassemble to `addr`, the port piece starts with the colon, and no colon
occurs after it. -/
theorem cachedDialContext_colon_split_safety (addr : List Char) :
    (cachedDialSplit addr = none ↔ ':' ∉ addr)
    ∧ (∀ hp : List Char × List Char, cachedDialSplit addr = some hp →
        hp.1 ++ hp.2 = addr ∧ hp.2.take 1 = [':'] ∧ ':' ∉ hp.2.drop 1) := by
  constructor
  · unfold cachedDialSplit
    rcases h : lastIdx ':' addr with _ | i
    · simpa using (lastIdx_none_iff ':' addr).mp h
    · simp only
      constructor
      · intro hfalse
        cases hfalse
      · intro hnotin
        exact absurd h (by simp [(lastIdx_none_iff ':' addr).mpr hnotin])
  · intro hp hsome
    unfold cachedDialSplit at hsome
    rcases h : lastIdx ':' addr with _ | i <;> rw [h] at hsome
    · cases hsome
    · cases hsome
      obtain ⟨ht, hd, _⟩ := lastIdx_drop ':' addr i h
      exact ⟨List.take_append_drop i addr, ht, hd⟩

/-- C9 at concrete inputs: `"h.test:443"` splits safely at its last colon
(properties obtained by applying the safety theorem and discharging its
nested hypothesis), while `"h.test"` — no colon — hits the panicking
branch. -/
theorem cachedDialContext_colon_split_safety_witness :
    ("h.test".data ++ ":443".data = "h.test:443".data
      ∧ (":443".data).take 1 = [':'] ∧ ':' ∉ (":443".data).drop 1)
    ∧ cachedDialSplit "h.test".data = none :=
  ⟨(cachedDialContext_colon_split_safety "h.test:443".data).2
      ("h.test".data, ":443".data) (by decide),
   (cachedDialContext_colon_split_safety "h.test".data).1.mpr (by decide)⟩

/-- C10 counterexample: the claim says the sequence of backoff sleeps
observed across all tasks of a run is non-decreasing.  The doubling
`*adaptiveDelay *= 2` is an unsynchronized read-modify-write on memory
shared by all workers; in the interleaving below (task 1 loads the delay,
tasks 2 and 3 run in between, then task 1 stores its stale doubled value)
the observed sleep durations are `10, 10, 20, 40, 20` — the last sleep is
SHORTER than the one before it, and the shared delay itself decreased from
40 back to 20. -/
theorem adaptive_delay_race_decreasing_sleeps_cex :
    (raceRun 10 [RaceEv.sleepR 1, RaceEv.loadR 1, RaceEv.sleepR 2, RaceEv.loadR 2,
        RaceEv.store 2, RaceEv.sleepR 2, RaceEv.loadR 2, RaceEv.store 2,
        RaceEv.sleepR 3, RaceEv.store 1, RaceEv.sleepR 2]).obs = [10, 10, 20, 40, 20]
    ∧ ¬ List.Pairwise (fun a b => a ≤ b) ([10, 10, 20, 40, 20] : List Int) := by
  refine ⟨by decide, by decide⟩

/-- Helper: int64 wraparound is the identity inside the representable
range. -/
theorem wrap64_eq {x : Int} (h0 : 0 ≤ x) (h1 : x < 2 ^ 63) : wrap64 x = x := by
  unfold wrap64
  have e63 : (2 : Int) ^ 63 = 9223372036854775808 := by norm_num
  have e64 : (2 : Int) ^ 64 = 18446744073709551616 := by norm_num
  rw [e63, e64] at *
  omega

/-- Helper: under the race-free schedule the shared delay after `n`
iterations is `n` in-place doublings of the initial value, and the observed
sleeps are the successive delay values. -/
theorem raceRun_serialized (d0 : Int) (n : Nat) :
    (raceRun d0 (serializedTrace n)).delay = pow2wrap d0 n
    ∧ (raceRun d0 (serializedTrace n)).obs
        = (List.range n).map (pow2wrap d0) := by
  induction n with
  | zero => exact ⟨rfl, rfl⟩
  | succ m ih =>
    have htrace : serializedTrace (m + 1)
        = serializedTrace m
            ++ [RaceEv.sleepR m, RaceEv.loadR m, RaceEv.store m] := by
      unfold serializedTrace
      rw [List.range_succ, List.flatMap_append]
      simp
    obtain ⟨ihd, iho⟩ := ih
    unfold raceRun at ihd iho ⊢
    rw [htrace, List.foldl_append]
    simp [raceStep, ihd, iho, List.range_succ, pow2wrap]

/-- Helper: while the doubled delay stays within int64 range, the in-place
doublings compute the exact powers. -/
theorem pow2wrap_eq (d0 : Int) (n : Nat) (h0 : 0 ≤ d0)
    (hb : d0 * 2 ^ n < 2 ^ 63) (k : Nat) (hk : k ≤ n) :
    pow2wrap d0 k = d0 * 2 ^ k := by
  induction k with
  | zero => simp [pow2wrap]
  | succ j ihj =>
    have hj : j ≤ n := Nat.le_of_succ_le hk
    have hje := ihj hj
    have hle : d0 * 2 ^ (j + 1) ≤ d0 * 2 ^ n :=
      mul_le_mul_of_nonneg_left (pow_le_pow_right₀ (by norm_num) hk) h0
    have hw : wrap64 (2 * (d0 * 2 ^ j)) = 2 * (d0 * 2 ^ j) := by
      apply wrap64_eq
      · positivity
      · calc 2 * (d0 * 2 ^ j) = d0 * 2 ^ (j + 1) := by ring
          _ ≤ d0 * 2 ^ n := hle
          _ < 2 ^ 63 := hb
    calc pow2wrap d0 (j + 1) = wrap64 (2 * pow2wrap d0 j) := rfl
      _ = wrap64 (2 * (d0 * 2 ^ j)) := by rw [hje]
      _ = 2 * (d0 * 2 ^ j) := hw
      _ = d0 * 2 ^ (j + 1) := by ring

/-- C10 amended: each doubling stores twice the value its task read, and no
access ever resets or explicitly lowers the delay; in a SERIALIZED (race
free) execution of `n` backoff iterations from a non-negative initial delay
that stays within int64 range, the observed sleep durations are
non-decreasing.  (Under the actual unsynchronized interleaving a stale
doubled store can lower the shared value — see the counterexample.) -/
theorem adaptive_delay_serialized_monotone (d0 : Int) (n : Nat)
    (h0 : 0 ≤ d0) (hb : d0 * 2 ^ n < 2 ^ 63) :
    List.Pairwise (fun a b => a ≤ b) (raceRun d0 (serializedTrace n)).obs := by
  rw [(raceRun_serialized d0 n).2, List.pairwise_map]
  have hrange : List.Pairwise (fun a b => a < b) (List.range n) :=
    List.pairwise_lt_range n
  refine hrange.imp_of_mem ?_
  intro a b ha hb2 hab
  have han : a ≤ n := Nat.le_of_lt (List.mem_range.mp ha)
  have hbn : b ≤ n := Nat.le_of_lt (List.mem_range.mp hb2)
  rw [pow2wrap_eq d0 n h0 hb a han, pow2wrap_eq d0 n h0 hb b hbn]
  exact mul_le_mul_of_nonneg_left
    (pow_le_pow_right₀ (by norm_num) (Nat.le_of_lt hab)) h0

/-- C10 amended, at a concrete input: three serialized backoff iterations
from the default 100ms delay observe non-decreasing sleeps. -/
theorem adaptive_delay_serialized_monotone_witness :
    List.Pairwise (fun a b => a ≤ b)
      (raceRun 100000000 (serializedTrace 3)).obs :=
  adaptive_delay_serialized_monotone 100000000 3 (by norm_num) (by norm_num)
